import Mathlib

/-!
# Predicate conditions and plan nodes of hyrise

A shallow embedding of the pure functions on `PredicateCondition` found in
`src/lib/types.cpp`, of the default pruning of
`src/lib/statistics/base_attribute_statistics.cpp` and of the plan node
variants of `src/lib/logical_query_plan`, followed by theorems about them.

`Fail(msg)` aborts the operation in the source; it is embedded as
`Except.error msg`, a normal `return v` as `Except.ok v`.
-/

namespace hyrise

/-- Modelled from the spec: the declaration of `enum class PredicateCondition`
lives in `types.hpp`, which is not among the sources. The constructors are the
sixteen enumerators that `types.cpp` names, in the order of the exhaustive
`switch` of `flip_predicate_condition`. -/
inductive PredicateCondition where
  | Equals
  | NotEquals
  | LessThan
  | LessThanEquals
  | GreaterThan
  | GreaterThanEquals
  | BetweenInclusive
  | BetweenLowerExclusive
  | BetweenUpperExclusive
  | BetweenExclusive
  | In
  | NotIn
  | Like
  | NotLike
  | IsNull
  | IsNotNull
  deriving DecidableEq, Repr, Fintype

open PredicateCondition

/-- Embedding of `is_binary_predicate_condition` (types.cpp, lines 7-15). -/
def is_binary_predicate_condition (predicate_condition : PredicateCondition) : Bool :=
  predicate_condition == Equals || predicate_condition == NotEquals ||
  predicate_condition == LessThan ||
  predicate_condition == LessThanEquals ||
  predicate_condition == GreaterThan ||
  predicate_condition == GreaterThanEquals ||
  predicate_condition == NotLike || predicate_condition == Like ||
  predicate_condition == In || predicate_condition == NotIn

/-- Embedding of `is_binary_numeric_predicate_condition` (types.cpp, lines 17-23). -/
def is_binary_numeric_predicate_condition (predicate_condition : PredicateCondition) : Bool :=
  predicate_condition == Equals || predicate_condition == NotEquals ||
  predicate_condition == LessThan ||
  predicate_condition == LessThanEquals ||
  predicate_condition == GreaterThan ||
  predicate_condition == GreaterThanEquals

/-- Embedding of `is_between_predicate_condition` (types.cpp, lines 25-30). -/
def is_between_predicate_condition (predicate_condition : PredicateCondition) : Bool :=
  predicate_condition == BetweenInclusive ||
  predicate_condition == BetweenLowerExclusive ||
  predicate_condition == BetweenUpperExclusive ||
  predicate_condition == BetweenExclusive

/-- Embedding of `is_lower_inclusive_between` (types.cpp, lines 32-35). -/
def is_lower_inclusive_between (predicate_condition : PredicateCondition) : Bool :=
  predicate_condition == BetweenInclusive ||
  predicate_condition == BetweenUpperExclusive

/-- Embedding of `is_upper_inclusive_between` (types.cpp, lines 37-40). -/
def is_upper_inclusive_between (predicate_condition : PredicateCondition) : Bool :=
  predicate_condition == BetweenInclusive ||
  predicate_condition == BetweenLowerExclusive

/-- Embedding of `flip_predicate_condition` (types.cpp, lines 42-70). The
`switch` lists all sixteen enumerators, so the trailing
`Fail("Invalid enum value")` is not reachable from a value of the enum. -/
def flip_predicate_condition (predicate_condition : PredicateCondition) :
    Except String PredicateCondition :=
  match predicate_condition with
  | Equals => .ok Equals
  | NotEquals => .ok NotEquals
  | LessThan => .ok GreaterThan
  | LessThanEquals => .ok GreaterThanEquals
  | GreaterThan => .ok LessThan
  | GreaterThanEquals => .ok LessThanEquals
  | BetweenInclusive
  | BetweenLowerExclusive
  | BetweenUpperExclusive
  | BetweenExclusive
  | In
  | NotIn
  | Like
  | NotLike
  | IsNull
  | IsNotNull => .error "Can't flip specified PredicateCondition"

/-- Embedding of `inverse_predicate_condition` (types.cpp, lines 72-102). -/
def inverse_predicate_condition (predicate_condition : PredicateCondition) :
    Except String PredicateCondition :=
  match predicate_condition with
  | Equals => .ok NotEquals
  | NotEquals => .ok Equals
  | GreaterThan => .ok LessThanEquals
  | LessThanEquals => .ok GreaterThan
  | GreaterThanEquals => .ok LessThan
  | LessThan => .ok GreaterThanEquals
  | Like => .ok NotLike
  | NotLike => .ok Like
  | IsNull => .ok IsNotNull
  | IsNotNull => .ok IsNull
  | In => .ok NotIn
  | NotIn => .ok In
  | _ => .error "Can't inverse the specified PredicateCondition"

/-- Embedding of `between_to_conditions` (types.cpp, lines 104-117). -/
def between_to_conditions (predicate_condition : PredicateCondition) :
    Except String (PredicateCondition × PredicateCondition) :=
  match predicate_condition with
  | BetweenInclusive => .ok (GreaterThanEquals, LessThanEquals)
  | BetweenLowerExclusive => .ok (GreaterThan, LessThanEquals)
  | BetweenUpperExclusive => .ok (GreaterThanEquals, LessThan)
  | BetweenExclusive => .ok (GreaterThan, LessThan)
  | _ => .error "Input was not a between condition"

/-- Embedding of `conditions_to_between` (types.cpp, lines 119-138): the
nested `if`s fall through to the final `Fail`. -/
def conditions_to_between (lower upper : PredicateCondition) :
    Except String PredicateCondition :=
  if lower == GreaterThan then
    if upper == LessThan then .ok BetweenExclusive
    else if upper == LessThanEquals then .ok BetweenLowerExclusive
    else .error "Unexpected PredicateCondition"
  else if lower == GreaterThanEquals then
    if upper == LessThan then .ok BetweenUpperExclusive
    else if upper == LessThanEquals then .ok BetweenInclusive
    else .error "Unexpected PredicateCondition"
  else .error "Unexpected PredicateCondition"

/-- True when the call ended in `Fail`. -/
def is_fail {α : Type} (r : Except String α) : Bool :=
  match r with
  | .ok _ => false
  | .error _ => true

/-- The usual meaning of the six comparison conditions on a linear order:
`comparison_holds c a b` is `some` of the truth value of `a c b` for
`=, !=, <, <=, >, >=`, and `none` for every condition that is not a plain
comparison of two values. This is the interpretation the specification gives
to flip ("left op right" to "right op left") and inverse (logical negation). -/
def comparison_holds {α : Type} [LinearOrder α] (c : PredicateCondition) (a b : α) :
    Option Bool :=
  match c with
  | Equals => some (decide (a = b))
  | NotEquals => some (decide (a ≠ b))
  | LessThan => some (decide (a < b))
  | LessThanEquals => some (decide (a ≤ b))
  | GreaterThan => some (decide (a > b))
  | GreaterThanEquals => some (decide (a ≥ b))
  | _ => none

/-! ## Conversion table of predicate conditions (types.cpp, lines 144-162) -/

/-- Modelled from the spec: `make_bimap` (utils/make_bimap.hpp) is not among
the sources. The specification calls the conversion tables immutable two-way
lookup tables; the helper fills one from the listed pairs in order, and a pair
whose left or right key is already present is not inserted, so that each key
of either side occurs at most once. -/
def make_bimap {L R : Type} [DecidableEq L] [DecidableEq R] (list : List (L × R)) :
    List (L × R) :=
  list.foldl
    (fun table p =>
      if table.any (fun q => q.1 == p.1 || q.2 == p.2) then table else table ++ [p])
    []

/-- Left lookup `table.left.at(key)`: the right value paired with `key`, and
an error (`std::out_of_range` in the source) when there is no such entry. -/
def left_at {L R : Type} [DecidableEq L] (table : List (L × R)) (key : L) : Except String R :=
  match table.find? (fun q => q.1 == key) with
  | some q => .ok q.2
  | none => .error "bimap<>: invalid key"

/-- Right lookup `table.right.at(key)`: the left value paired with `key`. -/
def right_at {L R : Type} [DecidableEq R] (table : List (L × R)) (key : R) : Except String L :=
  match table.find? (fun q => q.2 == key) with
  | some q => .ok q.1
  | none => .error "bimap<>: invalid key"

/-- Embedding of `predicate_condition_to_string` (types.cpp, lines 144-162). -/
def predicate_condition_to_string : List (PredicateCondition × String) :=
  make_bimap [
    (Equals, "="),
    (NotEquals, "!="),
    (LessThan, "<"),
    (LessThanEquals, "<="),
    (GreaterThan, ">"),
    (GreaterThanEquals, ">="),
    (BetweenInclusive, "BETWEEN INCLUSIVE"),
    (BetweenLowerExclusive, "BETWEEN LOWER EXCLUSIVE"),
    (BetweenUpperExclusive, "BETWEEN UPPER EXCLUSIVE"),
    (BetweenExclusive, "BETWEEN EXCLUSIVE"),
    (Like, "LIKE"),
    (NotLike, "NOT LIKE"),
    (In, "IN"),
    (NotIn, "NOT IN"),
    (IsNull, "IS NULL"),
    (IsNotNull, "IS NOT NULL")]

/-- Embedding of `operator<<(std::ostream&, PredicateCondition)` (types.cpp,
lines 188-190): the stream is the text written so far. -/
def operator_lshift (stream : String) (predicate_condition : PredicateCondition) :
    Except String String :=
  match left_at predicate_condition_to_string predicate_condition with
  | .ok text => .ok (stream ++ text)
  | .error e => .error e

/-! ## Attribute statistics (statistics/base_attribute_statistics.cpp) -/

/-- Embedding of the class `BaseAttributeStatistics`: its one member is the
data type tag set by the constructor (line 5). `DataType` is declared outside
the sources and is a parameter. -/
structure BaseAttributeStatistics (DataType : Type) where
  data_type : DataType

/-- Embedding of `BaseAttributeStatistics::pruned` (lines 7-11). The type
`AllTypeVariant` of the bounds is declared outside the sources and is a
parameter. -/
def BaseAttributeStatistics.pruned {DataType AllTypeVariant : Type}
    (_self : BaseAttributeStatistics DataType) (_num_values_pruned : Nat)
    (_predicate_condition : PredicateCondition) (_variant_value : AllTypeVariant)
    (_variant_value2 : Option AllTypeVariant) :
    Except String (BaseAttributeStatistics DataType) :=
  .error "Pruning has not yet been implemented for the given statistics object"

/-! ## Plan nodes (logical_query_plan) -/

/-- Modelled from the spec: `LQPNodeMapping` is declared in
abstract_lqp_node.hpp, not among the sources. It is the identity mapping from
the identity of a source node to the identity of its copy; node identities
are natural numbers. -/
abbrev LQPNodeMapping := List (Nat × Nat)

/-- Modelled from the spec: the base class `AbstractLQPNode` is declared
outside the sources. A plan node owns zero or more ordered child references;
a child is referred to by its identity. -/
structure AbstractLQPNode where
  inputs : List Nat
  deriving DecidableEq, Repr

/-- The first child reference, `left_input()` of the source, if there is one. -/
def AbstractLQPNode.left_input (self : AbstractLQPNode) : Option Nat :=
  self.inputs.head?

/-- The functions of Boost that the shallow hashes call, `boost::hash_value`
on a string and `boost::hash_combine` with a flag or with a file type. They
belong to an external library and are parameters: any fixed functions. -/
structure BoostHash (FileType : Type) where
  hash_value : String → Nat
  hash_combine_bool : Nat → Bool → Nat
  hash_combine_file_type : Nat → FileType → Nat

/-- Embedding of the class `CreateTableNode` (create_table_node.cpp): the
members `table_name` and `if_not_exists` on top of the base class. -/
structure CreateTableNode extends AbstractLQPNode where
  table_name : String
  if_not_exists : Bool
  deriving DecidableEq, Repr

/-- Embedding of `CreateTableNode::make(table_name, if_not_exists, input)`:
the constructor of lines 10-11 followed by setting the left input. -/
def CreateTableNode.make (table_name : String) (if_not_exists : Bool)
    (left_input : Option Nat) : CreateTableNode :=
  { inputs := left_input.toList, table_name := table_name, if_not_exists := if_not_exists }

/-- Embedding of `CreateTableNode::description` (lines 13-20); the stream is
the text written so far. `DescriptionMode` is declared outside the sources
and is a parameter. -/
def CreateTableNode.description {DescriptionMode : Type} (self : CreateTableNode)
    (_mode : DescriptionMode) : String :=
  let stream := ""
  let stream := stream ++ "[CreateTable] " ++ (if self.if_not_exists then "IfNotExists " else "")
  let stream := stream ++ "Name: '" ++ self.table_name ++ "'"
  stream

/-- Embedding of `CreateTableNode::_on_shallow_hash` (lines 22-26). -/
def CreateTableNode._on_shallow_hash {FileType : Type} (self : CreateTableNode)
    (boost : BoostHash FileType) : Nat :=
  let hash := boost.hash_value self.table_name
  let hash := boost.hash_combine_bool hash self.if_not_exists
  hash

/-- Embedding of `CreateTableNode::_on_shallow_copy` (lines 28-30). -/
def CreateTableNode._on_shallow_copy (self : CreateTableNode)
    (_node_mapping : LQPNodeMapping) : CreateTableNode :=
  CreateTableNode.make self.table_name self.if_not_exists self.left_input

/-- Embedding of `CreateTableNode::_on_shallow_equals` (lines 32-35). -/
def CreateTableNode._on_shallow_equals (self rhs : CreateTableNode)
    (_node_mapping : LQPNodeMapping) : Bool :=
  self.table_name == rhs.table_name && self.if_not_exists == rhs.if_not_exists

/-- Embedding of the class `ExportNode` (export_node.cpp). `FileType` is
declared outside the sources and is a parameter. -/
structure ExportNode (FileType : Type) extends AbstractLQPNode where
  file_name : String
  file_type : FileType
  deriving DecidableEq, Repr

/-- Embedding of `ExportNode::make(file_name, file_type)`: the constructor of
lines 9-10, with no input set. -/
def ExportNode.make {FileType : Type} (file_name : String) (file_type : FileType) :
    ExportNode FileType :=
  { inputs := [], file_name := file_name, file_type := file_type }

/-- Embedding of `ExportNode::description` (lines 12-14). -/
def ExportNode.description {FileType DescriptionMode : Type} (self : ExportNode FileType)
    (_mode : DescriptionMode) : String :=
  "[Export] to '" ++ self.file_name ++ "'"

/-- Embedding of `ExportNode::_on_shallow_hash` (lines 16-20). -/
def ExportNode._on_shallow_hash {FileType : Type} (self : ExportNode FileType)
    (boost : BoostHash FileType) : Nat :=
  let hash := boost.hash_value self.file_name
  let hash := boost.hash_combine_file_type hash self.file_type
  hash

/-- Embedding of `ExportNode::_on_shallow_copy` (lines 22-24). -/
def ExportNode._on_shallow_copy {FileType : Type} (self : ExportNode FileType)
    (_node_mapping : LQPNodeMapping) : ExportNode FileType :=
  ExportNode.make self.file_name self.file_type

/-- Embedding of `ExportNode::_on_shallow_equals` (lines 26-29). -/
def ExportNode._on_shallow_equals {FileType : Type} [DecidableEq FileType]
    (self rhs : ExportNode FileType) (_node_mapping : LQPNodeMapping) : Bool :=
  self.file_name == rhs.file_name && self.file_type == rhs.file_type

/-- Embedding of the class `DummyTableNode` (dummy_table_node.cpp): no
members of its own. -/
structure DummyTableNode extends AbstractLQPNode where
  deriving DecidableEq, Repr

/-- Embedding of `std::make_shared<DummyTableNode>()` (constructor, line 13). -/
def DummyTableNode.make : DummyTableNode :=
  { inputs := [] }

/-- Embedding of `DummyTableNode::description` (lines 15-17). -/
def DummyTableNode.description {DescriptionMode : Type} (_self : DummyTableNode)
    (_mode : DescriptionMode) : String :=
  "[DummyTable]"

/-- Embedding of `DummyTableNode::output_expressions` (lines 19-21). The
type of expressions is declared outside the sources and is a parameter. -/
def DummyTableNode.output_expressions {AbstractExpression : Type} (_self : DummyTableNode) :
    List AbstractExpression :=
  []

/-- Embedding of `DummyTableNode::is_column_nullable` (lines 23-25). -/
def DummyTableNode.is_column_nullable (_self : DummyTableNode) (_column_id : Nat) :
    Except String Bool :=
  .error "DummyTable does not output any columns"

/-- Embedding of `DummyTableNode::unique_column_combinations` (lines 27-29):
the empty set of column combinations. -/
def DummyTableNode.unique_column_combinations (_self : DummyTableNode) : List (List Nat) :=
  []

/-- Embedding of `DummyTableNode::_on_shallow_copy` (lines 31-33). -/
def DummyTableNode._on_shallow_copy (_self : DummyTableNode)
    (_node_mapping : LQPNodeMapping) : DummyTableNode :=
  DummyTableNode.make

/-- Embedding of `DummyTableNode::_on_shallow_equals` (lines 35-37). -/
def DummyTableNode._on_shallow_equals (_self _rhs : DummyTableNode)
    (_node_mapping : LQPNodeMapping) : Bool :=
  true

/-! ## Plan graphs and the deep operations -/

/-- Modelled from the spec: update_node.cpp is not among the sources;
update_node.hpp declares the member `table_name` on top of the base class.
The specification gives the variant the target table name as payload and two
children, the rows to invalidate and the rows to insert. -/
structure UpdateNode extends AbstractLQPNode where
  table_name : String
  deriving DecidableEq, Repr

/-- Modelled from the spec: the shallow copy of an Update node, whose
implementation is not among the sources, is a new node of the same variant
with identical payload. -/
def UpdateNode._on_shallow_copy (self : UpdateNode) (_node_mapping : LQPNodeMapping) :
    UpdateNode :=
  { inputs := [], table_name := self.table_name }

/-- Modelled from the spec: the shallow equality of Update nodes, whose
implementation is not among the sources, compares only the payload, the
target table name. -/
def UpdateNode._on_shallow_equals (self rhs : UpdateNode) (_node_mapping : LQPNodeMapping) :
    Bool :=
  self.table_name == rhs.table_name

/-- Modelled from the spec: the node kind tag, a closed enumeration with one
value per variant. The enumerators are those the constructors of the sources
pass to the base class, and `Update` for the variant of update_node.hpp. -/
inductive LQPNodeType where
  | CreateTable
  | Export
  | DummyTable
  | Update
  deriving DecidableEq, Repr

/-- Modelled from the spec: a plan node is one of the variants of the
catalog, a closed tagged variant over the node kinds. -/
inductive LQPNode (FileType : Type) where
  | CreateTable (node : CreateTableNode)
  | Export (node : ExportNode FileType)
  | DummyTable (node : DummyTableNode)
  | Update (node : UpdateNode)
  deriving DecidableEq, Repr

/-- The node kind tag of a plan node. -/
def LQPNode.type {FileType : Type} (self : LQPNode FileType) : LQPNodeType :=
  match self with
  | .CreateTable _ => .CreateTable
  | .Export _ => .Export
  | .DummyTable _ => .DummyTable
  | .Update _ => .Update

/-- The ordered child references of a plan node. -/
def LQPNode.inputs {FileType : Type} (self : LQPNode FileType) : List Nat :=
  match self with
  | .CreateTable node => node.inputs
  | .Export node => node.inputs
  | .DummyTable node => node.inputs
  | .Update node => node.inputs

/-- Rewire the children of a plan node; the payload stays. -/
def LQPNode.set_inputs {FileType : Type} (self : LQPNode FileType) (inputs : List Nat) :
    LQPNode FileType :=
  match self with
  | .CreateTable node => .CreateTable { node with inputs := inputs }
  | .Export node => .Export { node with inputs := inputs }
  | .DummyTable node => .DummyTable { node with inputs := inputs }
  | .Update node => .Update { node with inputs := inputs }

/-- Modelled from the spec: `shallow_copy(node_identity_mapping)`, the
dispatch to the `_on_shallow_copy` of the variant. The base class that holds
it is not among the sources. -/
def LQPNode.shallow_copy {FileType : Type} (self : LQPNode FileType)
    (node_mapping : LQPNodeMapping) : LQPNode FileType :=
  match self with
  | .CreateTable node => .CreateTable (node._on_shallow_copy node_mapping)
  | .Export node => .Export (node._on_shallow_copy node_mapping)
  | .DummyTable node => .DummyTable (node._on_shallow_copy node_mapping)
  | .Update node => .Update (node._on_shallow_copy node_mapping)

/-- Modelled from the spec: `shallow_equals(other, node_identity_mapping)`,
the dispatch to the `_on_shallow_equals` of the variant, which compares only
the payload. The caller guarantees that `rhs` is of the same variant; nodes
of different variants are reported different. -/
def LQPNode.shallow_equals {FileType : Type} [DecidableEq FileType]
    (self rhs : LQPNode FileType) (node_mapping : LQPNodeMapping) : Bool :=
  match self, rhs with
  | .CreateTable x, .CreateTable y => x._on_shallow_equals y node_mapping
  | .Export x, .Export y => x._on_shallow_equals y node_mapping
  | .DummyTable x, .DummyTable y => x._on_shallow_equals y node_mapping
  | .Update x, .Update y => x._on_shallow_equals y node_mapping
  | _, _ => false

/-- Modelled from the spec: a plan graph is a node arena together with a
root. The identity of a node is its index in the arena, child references are
indices, and a node referenced by several parents is shared. -/
structure PlanGraph (FileType : Type) where
  nodes : List (LQPNode FileType)
  root : Nat
  deriving DecidableEq, Repr

/-- Every chain of child references that starts at `id` stays inside the
arena and ends after fewer than `fuel` steps. -/
def dag_within {FileType : Type} (nodes : List (LQPNode FileType)) : Nat → Nat → Bool
  | 0, _ => false
  | fuel + 1, id =>
    match nodes[id]? with
    | none => false
    | some node => node.inputs.all (dag_within nodes fuel)

/-- Modelled from the spec: the plan graph is a DAG, with sharing but never
a true cycle. In a DAG of n nodes a chain of child references visits each
node at most once, so every chain from the root has at most n nodes; a
reachable cycle or a dangling reference makes this false. -/
def PlanGraph.is_dag {FileType : Type} (G : PlanGraph FileType) : Bool :=
  dag_within G.nodes G.nodes.length G.root

/-- The state of a deep copy: the arena of the copy built so far and the
identity mapping from source identities to identities in the copy. -/
structure CopyState (FileType : Type) where
  nodes : List (LQPNode FileType)
  node_mapping : LQPNodeMapping

/-- Copy the children of a node in child order with `copy_node`, threading
the state; returns the identities of the copies. -/
def deep_copy_inputs {FileType : Type}
    (copy_node : Nat → CopyState FileType → Option (Nat × CopyState FileType)) :
    List Nat → CopyState FileType → Option (List Nat × CopyState FileType)
  | [], state => some ([], state)
  | input :: inputs, state =>
    match copy_node input state with
    | none => none
    | some (copy_id, state1) =>
      match deep_copy_inputs copy_node inputs state1 with
      | none => none
      | some (copy_ids, state2) => some (copy_id :: copy_ids, state2)

/-- Modelled from the spec: the depth-first traversal of deep copy (section
4.4; the driver is not among the sources). A node already present in the
identity mapping is reused. Otherwise its shallow copy is allocated and the
mapping from the source identity to the copy is registered before the
children are copied; then the children are copied and the copy is wired to
the copied children. `fuel` bounds the depth of the traversal, and a
dangling reference or exhausted fuel gives `none`. -/
def deep_copy_node {FileType : Type} (source : List (LQPNode FileType)) :
    Nat → Nat → CopyState FileType → Option (Nat × CopyState FileType)
  | 0, _, _ => none
  | fuel + 1, id, state =>
    match state.node_mapping.lookup id with
    | some copy_id => some (copy_id, state)
    | none =>
      match source[id]? with
      | none => none
      | some node =>
        let copy_id := state.nodes.length
        let copy := node.shallow_copy state.node_mapping
        let state1 : CopyState FileType :=
          { nodes := state.nodes ++ [copy], node_mapping := (id, copy_id) :: state.node_mapping }
        match deep_copy_inputs (deep_copy_node source fuel) node.inputs state1 with
        | none => none
        | some (copied_inputs, state2) =>
          some (copy_id,
            { nodes := state2.nodes.set copy_id (copy.set_inputs copied_inputs),
              node_mapping := state2.node_mapping })

/-- Modelled from the spec: `deep_copy(root)`, started with an empty
identity mapping. The depth of a DAG is below its number of nodes, which is
the fuel. -/
def deep_copy {FileType : Type} (G : PlanGraph FileType) : Option (PlanGraph FileType) :=
  match deep_copy_node G.nodes G.nodes.length G.root { nodes := [], node_mapping := [] } with
  | none => none
  | some (copy_root, state) => some { nodes := state.nodes, root := copy_root }

/-- Compare two child sequences pairwise and in order with `equals_node`,
threading the paired identity mapping; sequences of different length are
different. -/
def deep_equals_inputs
    (equals_node : Nat → Nat → LQPNodeMapping → Option (Bool × LQPNodeMapping)) :
    List Nat → List Nat → LQPNodeMapping → Option (Bool × LQPNodeMapping)
  | [], [], pairs => some (true, pairs)
  | a :: as, b :: bs, pairs =>
    match equals_node a b pairs with
    | none => none
    | some (false, pairs1) => some (false, pairs1)
    | some (true, pairs1) => deep_equals_inputs equals_node as bs pairs1
  | _, _, pairs => some (false, pairs)

/-- Modelled from the spec: the traversal of deep equals (section 4.4; the
driver is not among the sources). The paired identity mapping records which
node of the right graph each visited node of the left graph corresponds to.
A left node visited again must meet the same right node, and a right node
already paired cannot be met by a new left node. A new pair is equal when
the variant tags are equal, `shallow_equals` holds, the numbers of children
are equal and the children are pairwise deep-equal. `fuel` bounds the depth;
a dangling reference or exhausted fuel gives `none`. -/
def deep_equals_node {FileType : Type} [DecidableEq FileType]
    (lhs rhs : List (LQPNode FileType)) :
    Nat → Nat → Nat → LQPNodeMapping → Option (Bool × LQPNodeMapping)
  | 0, _, _, _ => none
  | fuel + 1, a, b, pairs =>
    match pairs.lookup a with
    | some b' => some (b' == b, pairs)
    | none =>
      if pairs.any (fun q => q.2 == b) then some (false, pairs)
      else
        match lhs[a]?, rhs[b]? with
        | some x, some y =>
          if x.type == y.type && x.shallow_equals y pairs &&
              x.inputs.length == y.inputs.length then
            deep_equals_inputs (deep_equals_node lhs rhs fuel) x.inputs y.inputs
              ((a, b) :: pairs)
          else some (false, pairs)
        | _, _ => none

/-- Modelled from the spec: `deep_equals(a, b)`, started with an empty
paired identity mapping; the fuel is the number of nodes of the left graph. -/
def deep_equals {FileType : Type} [DecidableEq FileType] (G H : PlanGraph FileType) :
    Option Bool :=
  match deep_equals_node G.nodes H.nodes G.nodes.length G.root H.root [] with
  | none => none
  | some (result, _) => some result

/-- A plan with sharing: an Update of table "t" whose two children, the rows
to invalidate and the rows to insert, are Export nodes over the same
CreateTable node, which reads from a DummyTable. -/
def diamond_plan : PlanGraph Nat :=
  { nodes := [
      .DummyTable { inputs := [] },
      .CreateTable { inputs := [0], table_name := "orders", if_not_exists := true },
      .Export { inputs := [1], file_name := "a.csv", file_type := 0 },
      .Export { inputs := [1], file_name := "b.csv", file_type := 1 },
      .Update { inputs := [2, 3], table_name := "t" }],
    root := 4 }

/-! ### Invariants of the deep copy -/

/-- A copy state is well formed when every identity in the range of the
mapping is allocated in the arena of the copy and no two source identities
are mapped to the same copy. -/
def CopyState.wf {FileType : Type} (s : CopyState FileType) : Prop :=
  (∀ k v, s.node_mapping.lookup k = some v → v < s.nodes.length) ∧
  (∀ k k' v, s.node_mapping.lookup k = some v → s.node_mapping.lookup k' = some v → k = k')

/-- The state `s'` extends `s`: the arena grew and kept its old slots, the
mapping kept its old entries, and new entries point to new slots. -/
def CopyState.extended_by {FileType : Type} (s s' : CopyState FileType) : Prop :=
  s.nodes.length ≤ s'.nodes.length ∧
  (∀ t, t < s.nodes.length → s'.nodes[t]? = s.nodes[t]?) ∧
  (∀ k v, s.node_mapping.lookup k = some v → s'.node_mapping.lookup k = some v) ∧
  (∀ k v, s.node_mapping.lookup k = none → s'.node_mapping.lookup k = some v →
    s.nodes.length ≤ v)

/-- The source node `k` is completely copied in state `s`: it is mapped to a
slot that holds its shallow copy, wired to the copies of its children. -/
def copied {FileType : Type} (source : List (LQPNode FileType)) (s : CopyState FileType)
    (k : Nat) : Prop :=
  ∃ node v m js, source[k]? = some node ∧ s.node_mapping.lookup k = some v ∧
    s.nodes[v]? = some ((node.shallow_copy m).set_inputs js) ∧
    List.Forall₂ (fun c j => s.node_mapping.lookup c = some j) node.inputs js

/-- Every source node that `s'` maps and `s` did not is completely copied. -/
def new_copied {FileType : Type} (source : List (LQPNode FileType))
    (s s' : CopyState FileType) : Prop :=
  ∀ k v, s.node_mapping.lookup k = none → s'.node_mapping.lookup k = some v →
    copied source s' k

/-- What a copy function must do at source node `i`, from any well-formed
state: return a copy identity and a well-formed extension of the state in
which `i` is mapped to it and all newly mapped nodes are completely copied. -/
def copy_ok {FileType : Type} (source : List (LQPNode FileType))
    (f : Nat → CopyState FileType → Option (Nat × CopyState FileType)) (i : Nat) : Prop :=
  ∀ s, s.wf → ∃ j s', f i s = some (j, s') ∧ s'.wf ∧ s.extended_by s' ∧
    s'.node_mapping.lookup i = some j ∧ new_copied source s s'

/-- Every pair of the paired identity mapping is a pair of the copy mapping. -/
def pairs_ok {FileType : Type} (s : CopyState FileType) (pairs : LQPNodeMapping) : Prop :=
  ∀ q ∈ pairs, s.node_mapping.lookup q.1 = some q.2

/-- What an equality function must do at a source node `a` against its copy:
report equality and keep the pairs inside the copy mapping. -/
def equals_ok {FileType : Type} (s : CopyState FileType)
    (f : Nat → Nat → LQPNodeMapping → Option (Bool × LQPNodeMapping)) (a : Nat) : Prop :=
  ∀ b pairs, s.node_mapping.lookup a = some b → pairs_ok s pairs →
    ∃ pairs', f a b pairs = some (true, pairs') ∧ pairs_ok s pairs'

/-! ## Decomposition and recomposition of between conditions -/

/-- C1: round trip. For each of the four between variants `B`,
`between_to_conditions B` returns a pair `(l, u)` and
`conditions_to_between l u` returns exactly `B`. -/
theorem between_round_trip (B : PredicateCondition)
    (hB : B = BetweenInclusive ∨ B = BetweenLowerExclusive ∨
      B = BetweenUpperExclusive ∨ B = BetweenExclusive) :
    ∃ l u, between_to_conditions B = .ok (l, u) ∧ conditions_to_between l u = .ok B := by
  rcases hB with h | h | h | h <;> subst h
  · exact ⟨GreaterThanEquals, LessThanEquals, rfl, rfl⟩
  · exact ⟨GreaterThan, LessThanEquals, rfl, rfl⟩
  · exact ⟨GreaterThanEquals, LessThan, rfl, rfl⟩
  · exact ⟨GreaterThan, LessThan, rfl, rfl⟩

/-- Witness of C1 at `BetweenLowerExclusive`, the scenario of the specification. -/
theorem between_round_trip_witness :
    (BetweenLowerExclusive = BetweenInclusive ∨
      BetweenLowerExclusive = BetweenLowerExclusive ∨
      BetweenLowerExclusive = BetweenUpperExclusive ∨
      BetweenLowerExclusive = BetweenExclusive) ∧
    ∃ l u, between_to_conditions BetweenLowerExclusive = .ok (l, u) ∧
      conditions_to_between l u = .ok BetweenLowerExclusive :=
  ⟨by decide, between_round_trip BetweenLowerExclusive (by decide)⟩

set_option maxRecDepth 100000 in
/-- Number of pairs on which `conditions_to_between` fails. -/
theorem conditions_to_between_fail_count :
    (Finset.univ.filter fun p : PredicateCondition × PredicateCondition =>
      is_fail (conditions_to_between p.1 p.2) = true).card = 252 := by
  decide

set_option maxRecDepth 100000 in
/-- Number of pairs on which `conditions_to_between` returns a value. -/
theorem conditions_to_between_ok_count :
    (Finset.univ.filter fun p : PredicateCondition × PredicateCondition =>
      is_fail (conditions_to_between p.1 p.2) = false).card = 4 := by
  decide

/-- C2: `conditions_to_between` is the exact partial inverse of
`between_to_conditions`: it returns `B` on `(l, u)` exactly when
`between_to_conditions B` returns `(l, u)`. It returns a value exactly on the
four pairs with `l` in GreaterThan, GreaterThanEquals and `u` in LessThan,
LessThanEquals, and it fails on the other 252 of the 256 pairs. -/
theorem conditions_to_between_partial_inverse :
    (∀ l u B, conditions_to_between l u = .ok B ↔ between_to_conditions B = .ok (l, u)) ∧
    (∀ l u, (∃ B, conditions_to_between l u = .ok B) ↔
      ((l = GreaterThan ∨ l = GreaterThanEquals) ∧ (u = LessThan ∨ u = LessThanEquals))) ∧
    (∀ l u, conditions_to_between l u = .error "Unexpected PredicateCondition" ↔
      ¬ ((l = GreaterThan ∨ l = GreaterThanEquals) ∧ (u = LessThan ∨ u = LessThanEquals))) ∧
    (Finset.univ.filter fun p : PredicateCondition × PredicateCondition =>
      is_fail (conditions_to_between p.1 p.2) = true).card = 252 ∧
    (Finset.univ.filter fun p : PredicateCondition × PredicateCondition =>
      is_fail (conditions_to_between p.1 p.2) = false).card = 4 := by
  refine ⟨?_, ?_, ?_, ?_, ?_⟩
  · intro l u B
    constructor
    · intro h
      cases l <;> cases u <;> first
        | (injection h with h; subst h; rfl)
        | (exact absurd h (by simp [conditions_to_between]))
    · intro h
      cases B <;> first
        | (injection h with h; injection h with h1 h2; subst h1; subst h2; rfl)
        | (exact absurd h (by simp [between_to_conditions]))
  · intro l u
    cases l <;> cases u <;> simp [conditions_to_between]
  · intro l u
    cases l <;> cases u <;> simp [conditions_to_between]
  · exact conditions_to_between_fail_count
  · exact conditions_to_between_ok_count

/-- C5: `between_to_conditions` returns a pair exactly on the between
variants (where `is_between_predicate_condition` is true) and fails on every
other condition; a returned pair `(l, u)` has `l` in GreaterThan,
GreaterThanEquals and `u` in LessThan, LessThanEquals; the four variants map
to the four listed pairs, which are pairwise different. -/
theorem between_to_conditions_table :
    (∀ c, (∃ p, between_to_conditions c = .ok p) ↔ is_between_predicate_condition c = true) ∧
    (∀ c, between_to_conditions c = .error "Input was not a between condition" ↔
      is_between_predicate_condition c = false) ∧
    (∀ c l u, between_to_conditions c = .ok (l, u) →
      (l = GreaterThan ∨ l = GreaterThanEquals) ∧ (u = LessThan ∨ u = LessThanEquals)) ∧
    between_to_conditions BetweenInclusive = .ok (GreaterThanEquals, LessThanEquals) ∧
    between_to_conditions BetweenLowerExclusive = .ok (GreaterThan, LessThanEquals) ∧
    between_to_conditions BetweenUpperExclusive = .ok (GreaterThanEquals, LessThan) ∧
    between_to_conditions BetweenExclusive = .ok (GreaterThan, LessThan) ∧
    (∀ c c' p, between_to_conditions c = .ok p → between_to_conditions c' = .ok p → c = c') := by
  refine ⟨?_, ?_, ?_, rfl, rfl, rfl, rfl, ?_⟩
  · intro c
    cases c <;> simp [between_to_conditions, is_between_predicate_condition]
  · intro c
    cases c <;> simp [between_to_conditions, is_between_predicate_condition]
  · intro c l u h
    cases c <;> first
      | (injection h with h; injection h with h1 h2; subst h1; subst h2; decide)
      | (exact absurd h (by simp [between_to_conditions]))
  · intro c c' p h h'
    cases c <;> simp [between_to_conditions] at h <;>
      cases c' <;> simp [between_to_conditions] at h' <;> first
        | rfl
        | (subst h; simp at h')

/-- Witness of C5 at BetweenUpperExclusive: its pair is drawn from the two
allowed sets. -/
theorem between_to_conditions_table_witness :
    between_to_conditions BetweenUpperExclusive = .ok (GreaterThanEquals, LessThan) ∧
    ((GreaterThanEquals = GreaterThan ∨ GreaterThanEquals = GreaterThanEquals) ∧
      (LessThan = LessThan ∨ LessThan = LessThanEquals)) :=
  ⟨rfl, between_to_conditions_table.2.2.1 BetweenUpperExclusive GreaterThanEquals LessThan rfl⟩

/-- C10: the inclusiveness flags agree with the decomposition. Whenever
`between_to_conditions B` returns `(l, u)`, `is_lower_inclusive_between B` is
true exactly when `l` is GreaterThanEquals and `is_upper_inclusive_between B`
is true exactly when `u` is LessThanEquals. The four between variants have the
flag pairs (true, true), (false, true), (true, false), (false, false), and no
two between variants share their flag pair. -/
theorem inclusive_flags_agree_with_decomposition :
    (∀ B l u, between_to_conditions B = .ok (l, u) →
      ((is_lower_inclusive_between B = true ↔ l = GreaterThanEquals) ∧
       (is_upper_inclusive_between B = true ↔ u = LessThanEquals))) ∧
    (is_lower_inclusive_between BetweenInclusive,
      is_upper_inclusive_between BetweenInclusive) = (true, true) ∧
    (is_lower_inclusive_between BetweenLowerExclusive,
      is_upper_inclusive_between BetweenLowerExclusive) = (false, true) ∧
    (is_lower_inclusive_between BetweenUpperExclusive,
      is_upper_inclusive_between BetweenUpperExclusive) = (true, false) ∧
    (is_lower_inclusive_between BetweenExclusive,
      is_upper_inclusive_between BetweenExclusive) = (false, false) ∧
    (∀ B B', is_between_predicate_condition B = true →
      is_between_predicate_condition B' = true →
      is_lower_inclusive_between B = is_lower_inclusive_between B' →
      is_upper_inclusive_between B = is_upper_inclusive_between B' → B = B') := by
  refine ⟨?_, rfl, rfl, rfl, rfl, ?_⟩
  · intro B l u h
    cases B <;> first
      | (injection h with h; injection h with h1 h2; subst h1; subst h2; decide)
      | (exact absurd h (by simp [between_to_conditions]))
  · intro B B'
    cases B <;> cases B' <;> decide

/-- Witness of C10 at BetweenLowerExclusive, which decomposes into
(GreaterThan, LessThanEquals). -/
theorem inclusive_flags_agree_with_decomposition_witness :
    between_to_conditions BetweenLowerExclusive = .ok (GreaterThan, LessThanEquals) ∧
    ((is_lower_inclusive_between BetweenLowerExclusive = true ↔
        GreaterThan = GreaterThanEquals) ∧
      (is_upper_inclusive_between BetweenLowerExclusive = true ↔
        LessThanEquals = LessThanEquals)) :=
  ⟨rfl, inclusive_flags_agree_with_decomposition.1 BetweenLowerExclusive
    GreaterThan LessThanEquals rfl⟩

/-! ## Flip and inverse -/

/-- C3: `inverse_predicate_condition` fails exactly on the four between
variants; on the other twelve conditions it returns the partner in the pairs
Equals/NotEquals, GreaterThan/LessThanEquals, GreaterThanEquals/LessThan,
Like/NotLike, IsNull/IsNotNull, In/NotIn. GreaterThan maps to LessThanEquals
and not to LessThan. -/
theorem inverse_predicate_condition_table :
    (∀ c, inverse_predicate_condition c = .error "Can't inverse the specified PredicateCondition" ↔
      (c = BetweenInclusive ∨ c = BetweenLowerExclusive ∨
        c = BetweenUpperExclusive ∨ c = BetweenExclusive)) ∧
    (∀ c, is_fail (inverse_predicate_condition c) = true ↔
      (c = BetweenInclusive ∨ c = BetweenLowerExclusive ∨
        c = BetweenUpperExclusive ∨ c = BetweenExclusive)) ∧
    inverse_predicate_condition Equals = .ok NotEquals ∧
    inverse_predicate_condition NotEquals = .ok Equals ∧
    inverse_predicate_condition GreaterThan = .ok LessThanEquals ∧
    inverse_predicate_condition LessThanEquals = .ok GreaterThan ∧
    inverse_predicate_condition GreaterThanEquals = .ok LessThan ∧
    inverse_predicate_condition LessThan = .ok GreaterThanEquals ∧
    inverse_predicate_condition Like = .ok NotLike ∧
    inverse_predicate_condition NotLike = .ok Like ∧
    inverse_predicate_condition IsNull = .ok IsNotNull ∧
    inverse_predicate_condition IsNotNull = .ok IsNull ∧
    inverse_predicate_condition In = .ok NotIn ∧
    inverse_predicate_condition NotIn = .ok In ∧
    inverse_predicate_condition GreaterThan ≠ .ok LessThan := by
  refine ⟨?_, ?_, rfl, rfl, rfl, rfl, rfl, rfl, rfl, rfl, rfl, rfl, rfl, rfl, ?_⟩
  · intro c
    cases c <;> simp [inverse_predicate_condition]
  · intro c
    cases c <;> simp [inverse_predicate_condition, is_fail]
  · simp [inverse_predicate_condition]

/-- C4: `flip_predicate_condition` returns a value exactly on Equals,
NotEquals, LessThan, LessThanEquals, GreaterThan, GreaterThanEquals. Equals
and NotEquals map to themselves, LessThan and GreaterThan to each other,
LessThanEquals and GreaterThanEquals to each other. On the four between
variants, In, NotIn, Like, NotLike, IsNull and IsNotNull it fails. -/
theorem flip_predicate_condition_table :
    (∀ c, (∃ v, flip_predicate_condition c = .ok v) ↔
      (c = Equals ∨ c = NotEquals ∨ c = LessThan ∨ c = LessThanEquals ∨
        c = GreaterThan ∨ c = GreaterThanEquals)) ∧
    flip_predicate_condition Equals = .ok Equals ∧
    flip_predicate_condition NotEquals = .ok NotEquals ∧
    flip_predicate_condition LessThan = .ok GreaterThan ∧
    flip_predicate_condition GreaterThan = .ok LessThan ∧
    flip_predicate_condition LessThanEquals = .ok GreaterThanEquals ∧
    flip_predicate_condition GreaterThanEquals = .ok LessThanEquals ∧
    (∀ c, flip_predicate_condition c = .error "Can't flip specified PredicateCondition" ↔
      (c = BetweenInclusive ∨ c = BetweenLowerExclusive ∨ c = BetweenUpperExclusive ∨
        c = BetweenExclusive ∨ c = In ∨ c = NotIn ∨ c = Like ∨ c = NotLike ∨
        c = IsNull ∨ c = IsNotNull)) ∧
    (∀ c, is_fail (flip_predicate_condition c) = true ↔
      ¬ (∃ v, flip_predicate_condition c = .ok v)) := by
  refine ⟨?_, rfl, rfl, rfl, rfl, rfl, rfl, ?_, ?_⟩
  · intro c
    cases c <;> simp [flip_predicate_condition]
  · intro c
    cases c <;> simp [flip_predicate_condition]
  · intro c
    cases c <;> simp [flip_predicate_condition, is_fail]

/-- C6: inverse is an involution on its domain. Whenever
`inverse_predicate_condition c` returns `d`, `inverse_predicate_condition d`
returns a value too, and that value is `c`. -/
theorem inverse_involution (c d : PredicateCondition)
    (h : inverse_predicate_condition c = .ok d) :
    inverse_predicate_condition d = .ok c := by
  cases c <;> first
    | (injection h with h; subst h; rfl)
    | (exact absurd h (by simp [inverse_predicate_condition]))

/-- Witness of C6 at GreaterThan, whose inverse is LessThanEquals. -/
theorem inverse_involution_witness :
    inverse_predicate_condition GreaterThan = .ok LessThanEquals ∧
    inverse_predicate_condition LessThanEquals = .ok GreaterThan :=
  ⟨rfl, inverse_involution GreaterThan LessThanEquals rfl⟩

/-- C7: flip is an involution on its domain. Whenever
`flip_predicate_condition c` returns `d`, `flip_predicate_condition d` returns
a value too, and that value is `c`. -/
theorem flip_involution (c d : PredicateCondition)
    (h : flip_predicate_condition c = .ok d) :
    flip_predicate_condition d = .ok c := by
  cases c <;> first
    | (injection h with h; subst h; rfl)
    | (exact absurd h (by simp [flip_predicate_condition]))

/-- Witness of C7 at LessThanEquals, whose flip is GreaterThanEquals. -/
theorem flip_involution_witness :
    flip_predicate_condition LessThanEquals = .ok GreaterThanEquals ∧
    flip_predicate_condition GreaterThanEquals = .ok LessThanEquals :=
  ⟨rfl, flip_involution LessThanEquals GreaterThanEquals rfl⟩

/-- C8: inverse is logical negation on the comparison conditions. For each of
Equals, NotEquals, LessThan, LessThanEquals, GreaterThan, GreaterThanEquals,
read as the usual relation on a linear order, `inverse_predicate_condition`
returns a comparison that holds of `(a, b)` exactly when the given one does
not. -/
theorem inverse_is_negation {α : Type} [LinearOrder α] (c : PredicateCondition)
    (hc : is_binary_numeric_predicate_condition c = true) (a b : α) :
    ∃ d v, inverse_predicate_condition c = .ok d ∧
      comparison_holds c a b = some v ∧ comparison_holds d a b = some (!v) := by
  cases c <;> first
    | (refine ⟨_, _, rfl, rfl, ?_⟩
       simp only [comparison_holds, ge_iff_le, gt_iff_lt]
       simp only [← not_lt, decide_not, Bool.not_not])
    | (exact absurd hc (by decide))

/-- Witness of C8 at "3 > 5" over the integers. -/
theorem inverse_is_negation_witness :
    is_binary_numeric_predicate_condition GreaterThan = true ∧
    ∃ d v, inverse_predicate_condition GreaterThan = .ok d ∧
      comparison_holds GreaterThan (3 : Int) 5 = some v ∧
      comparison_holds d (3 : Int) 5 = some (!v) :=
  ⟨by decide, inverse_is_negation GreaterThan (by decide) (3 : Int) 5⟩

/-- C9: flip swaps the operands without changing the meaning. Whenever
`flip_predicate_condition c` returns `d`, both are comparisons and, read as
the usual relations on a linear order, `d` holds of `(b, a)` exactly when `c`
holds of `(a, b)`. -/
theorem flip_swaps_operands {α : Type} [LinearOrder α] (c d : PredicateCondition)
    (h : flip_predicate_condition c = .ok d) (a b : α) :
    ∃ v, comparison_holds c a b = some v ∧ comparison_holds d b a = some v := by
  cases c <;> first
    | (injection h with h; subst h
       refine ⟨_, rfl, ?_⟩
       simp [comparison_holds, eq_comm])
    | (exact absurd h (by simp [flip_predicate_condition]))

/-- Witness of C9 at "3 < 5" over the integers, flipped to "5 > 3". -/
theorem flip_swaps_operands_witness :
    flip_predicate_condition LessThan = .ok GreaterThan ∧
    ∃ v, comparison_holds LessThan (3 : Int) 5 = some v ∧
      comparison_holds GreaterThan (5 : Int) 3 = some v :=
  ⟨rfl, flip_swaps_operands LessThan GreaterThan rfl (3 : Int) 5⟩

/-- C19: flip and inverse commute. Whenever `flip_predicate_condition c`
returns `d` (so `c` is one of the six comparisons), `inverse_predicate_condition`
returns a value `e` on `c` that flip accepts, it returns a value on `d`, and
inverse after flip equals flip after inverse. -/
theorem flip_inverse_commute (c d : PredicateCondition)
    (h : flip_predicate_condition c = .ok d) :
    ∃ e f, inverse_predicate_condition c = .ok e ∧ flip_predicate_condition e = .ok f ∧
      inverse_predicate_condition d = .ok f := by
  cases c <;> first
    | (injection h with h; subst h; exact ⟨_, _, rfl, rfl, rfl⟩)
    | (exact absurd h (by simp [flip_predicate_condition]))

/-- Witness of C19 at LessThan: flip gives GreaterThan, inverse gives
GreaterThanEquals, and both orders end in LessThanEquals. -/
theorem flip_inverse_commute_witness :
    flip_predicate_condition LessThan = .ok GreaterThan ∧
    ∃ e f, inverse_predicate_condition LessThan = .ok e ∧
      flip_predicate_condition e = .ok f ∧
      inverse_predicate_condition GreaterThan = .ok f :=
  ⟨rfl, flip_inverse_commute LessThan GreaterThan rfl⟩

/-! ## Classification predicates -/

/-- C11, as stated, fails: on Equals two of the three classification
predicates are true (binary and binary numeric), on IsNull none is, so it is
not the case that exactly one of them is true on every condition. -/
theorem classification_not_a_partition :
    [is_binary_predicate_condition Equals, is_binary_numeric_predicate_condition Equals,
      is_between_predicate_condition Equals].count true = 2 ∧
    [is_binary_predicate_condition IsNull, is_binary_numeric_predicate_condition IsNull,
      is_between_predicate_condition IsNull].count true = 0 ∧
    ¬ ∀ c, [is_binary_predicate_condition c, is_binary_numeric_predicate_condition c,
      is_between_predicate_condition c].count true = 1 :=
  ⟨by decide, by decide, fun h => absurd (h Equals) (by decide)⟩

/-- C11, amended: the binary numeric conditions are exactly the six
comparisons and each of them is also binary; no condition is both binary and
between; every condition other than IsNull and IsNotNull is either binary or
between, and on IsNull and IsNotNull all three predicates are false. -/
theorem classification_structure (c : PredicateCondition) :
    (is_binary_numeric_predicate_condition c = true ↔
      (c = Equals ∨ c = NotEquals ∨ c = LessThan ∨ c = LessThanEquals ∨
        c = GreaterThan ∨ c = GreaterThanEquals)) ∧
    (is_binary_numeric_predicate_condition c = true →
      is_binary_predicate_condition c = true) ∧
    ¬ (is_binary_predicate_condition c = true ∧ is_between_predicate_condition c = true) ∧
    ([is_binary_predicate_condition c, is_between_predicate_condition c].count true = 1 ↔
      (c ≠ IsNull ∧ c ≠ IsNotNull)) ∧
    ((c = IsNull ∨ c = IsNotNull) ↔
      (is_binary_predicate_condition c = false ∧
        is_binary_numeric_predicate_condition c = false ∧
        is_between_predicate_condition c = false)) := by
  cases c <;> decide

/-! ## Conversion table -/

/-- C20: the table `predicate_condition_to_string` is total and one-to-one.
It has sixteen entries, exactly one for each predicate condition, and its
sixteen strings are pairwise distinct; the left lookup succeeds on every
condition, so `operator<<` appends a text for every condition, and the right
lookup of that text returns the condition. -/
theorem predicate_condition_to_string_total_one_to_one :
    predicate_condition_to_string.length = 16 ∧
    (∀ c, (predicate_condition_to_string.filter fun q => q.1 == c).length = 1) ∧
    (predicate_condition_to_string.map Prod.snd).Nodup ∧
    (∀ c, ∃ text, left_at predicate_condition_to_string c = .ok text ∧
      right_at predicate_condition_to_string text = .ok c) ∧
    (∀ stream c, ∃ text, left_at predicate_condition_to_string c = .ok text ∧
      operator_lshift stream c = .ok (stream ++ text)) := by
  refine ⟨by decide, ?_, by decide, ?_, ?_⟩
  · intro c
    cases c <;> decide
  · intro c
    cases c <;> exact ⟨_, rfl, rfl⟩
  · intro stream c
    cases c <;> exact ⟨_, rfl, rfl⟩

/-! ## Attribute statistics -/

/-- C16: the default `BaseAttributeStatistics::pruned` fails for every
number of pruned values, predicate condition, first bound and optional second
bound; it never returns a statistics object. -/
theorem pruned_always_fails {DataType AllTypeVariant : Type}
    (statistics : BaseAttributeStatistics DataType) (num_values_pruned : Nat)
    (predicate_condition : PredicateCondition) (variant_value : AllTypeVariant)
    (variant_value2 : Option AllTypeVariant) :
    statistics.pruned num_values_pruned predicate_condition variant_value variant_value2 =
      .error "Pruning has not yet been implemented for the given statistics object" ∧
    is_fail (statistics.pruned num_values_pruned predicate_condition variant_value
      variant_value2) = true ∧
    ∀ result, statistics.pruned num_values_pruned predicate_condition variant_value
      variant_value2 ≠ .ok result := by
  refine ⟨rfl, rfl, ?_⟩
  intro result h
  simp [BaseAttributeStatistics.pruned] at h

/-! ## Plan node variants -/

/-- C12: hash consistency. Two CreateTableNodes that `_on_shallow_equals`
reports equal have the same `_on_shallow_hash`, and so have two ExportNodes,
whatever fixed functions `boost::hash_value` and `boost::hash_combine` are. -/
theorem shallow_equals_implies_equal_hash {FileType : Type} [DecidableEq FileType]
    (boost : BoostHash FileType) (node_mapping : LQPNodeMapping) :
    (∀ x y : CreateTableNode, x._on_shallow_equals y node_mapping = true →
      x._on_shallow_hash boost = y._on_shallow_hash boost) ∧
    (∀ x y : ExportNode FileType, x._on_shallow_equals y node_mapping = true →
      x._on_shallow_hash boost = y._on_shallow_hash boost) := by
  constructor
  · intro x y h
    simp only [CreateTableNode._on_shallow_equals, Bool.and_eq_true, beq_iff_eq] at h
    simp only [CreateTableNode._on_shallow_hash, h.1, h.2]
  · intro x y h
    simp only [ExportNode._on_shallow_equals, Bool.and_eq_true, beq_iff_eq] at h
    simp only [ExportNode._on_shallow_hash, h.1, h.2]

/-- Witness of C12: two CreateTableNodes with the same name and flag but
different inputs are shallow-equal and hash alike, with a sample hash. -/
theorem shallow_equals_implies_equal_hash_witness :
    (CreateTableNode.make "orders" true none)._on_shallow_equals
      (CreateTableNode.make "orders" true (some 3)) [] = true ∧
    (CreateTableNode.make "orders" true none)._on_shallow_hash
        (⟨String.length, fun h b => 31 * h + b.toNat, fun h t => 31 * h + t⟩ : BoostHash Nat) =
      (CreateTableNode.make "orders" true (some 3))._on_shallow_hash
        (⟨String.length, fun h b => 31 * h + b.toNat, fun h t => 31 * h + t⟩ : BoostHash Nat) :=
  ⟨by decide, (shallow_equals_implies_equal_hash _ []).1 _ _ (by decide)⟩

/-- C13: CreateTable equality is payload equality. `_on_shallow_equals` is
true exactly when the table names are equal and the flags are equal, whatever
node mapping is passed; nodes that differ only in the flag, or only in the
name, are not equal. -/
theorem create_table_equals_iff_payload (x y : CreateTableNode)
    (node_mapping : LQPNodeMapping) :
    (x._on_shallow_equals y node_mapping = true ↔
      (x.table_name = y.table_name ∧ x.if_not_exists = y.if_not_exists)) ∧
    (∀ name input input', (CreateTableNode.make name true input)._on_shallow_equals
      (CreateTableNode.make name false input') node_mapping = false) ∧
    (∀ name name' flag input input', name ≠ name' →
      (CreateTableNode.make name flag input)._on_shallow_equals
        (CreateTableNode.make name' flag input') node_mapping = false) ∧
    (CreateTableNode.make "orders" true none)._on_shallow_equals
      (CreateTableNode.make "orders" false none) node_mapping = false := by
  refine ⟨?_, ?_, ?_, ?_⟩
  · simp [CreateTableNode._on_shallow_equals]
  · intro name input input'
    simp [CreateTableNode._on_shallow_equals, CreateTableNode.make]
  · intro name name' flag input input' h
    simp [CreateTableNode._on_shallow_equals, CreateTableNode.make, h]
  · simp [CreateTableNode._on_shallow_equals, CreateTableNode.make]

/-- Witness of C13 for its clause on names: "orders" and "items" with the
same flag are not equal. -/
theorem create_table_equals_iff_payload_witness :
    (CreateTableNode.make "orders" true none)._on_shallow_equals
      (CreateTableNode.make "items" true none) [] = false :=
  (create_table_equals_iff_payload (CreateTableNode.make "orders" true none)
    (CreateTableNode.make "orders" true none) []).2.2.1 "orders" "items" true none none
    (by decide)

/-- C14: shallow copy preserves the payload. The copy of a CreateTableNode
has the same table name and flag, is `_on_shallow_equals` to the original and
has the same `_on_shallow_hash`; the copy of an ExportNode has the same file
name and file type, is shallow-equal to the original and hashes alike. -/
theorem shallow_copy_preserves_payload {FileType : Type} [DecidableEq FileType]
    (boost : BoostHash FileType) (n : CreateTableNode) (e : ExportNode FileType)
    (copy_mapping equals_mapping : LQPNodeMapping) :
    ((n._on_shallow_copy copy_mapping).table_name = n.table_name ∧
      (n._on_shallow_copy copy_mapping).if_not_exists = n.if_not_exists ∧
      n._on_shallow_equals (n._on_shallow_copy copy_mapping) equals_mapping = true ∧
      (n._on_shallow_copy copy_mapping)._on_shallow_equals n equals_mapping = true ∧
      (n._on_shallow_copy copy_mapping)._on_shallow_hash boost = n._on_shallow_hash boost) ∧
    ((e._on_shallow_copy copy_mapping).file_name = e.file_name ∧
      (e._on_shallow_copy copy_mapping).file_type = e.file_type ∧
      e._on_shallow_equals (e._on_shallow_copy copy_mapping) equals_mapping = true ∧
      (e._on_shallow_copy copy_mapping)._on_shallow_equals e equals_mapping = true ∧
      (e._on_shallow_copy copy_mapping)._on_shallow_hash boost = e._on_shallow_hash boost) := by
  refine ⟨⟨rfl, rfl, ?_, ?_, rfl⟩, ⟨rfl, rfl, ?_, ?_, rfl⟩⟩
  · simp [CreateTableNode._on_shallow_equals, CreateTableNode._on_shallow_copy,
      CreateTableNode.make]
  · simp [CreateTableNode._on_shallow_equals, CreateTableNode._on_shallow_copy,
      CreateTableNode.make]
  · simp [ExportNode._on_shallow_equals, ExportNode._on_shallow_copy, ExportNode.make]
  · simp [ExportNode._on_shallow_equals, ExportNode._on_shallow_copy, ExportNode.make]

/-- C15: a DummyTableNode has no output expressions, and
`is_column_nullable` fails for every column id instead of returning a
boolean. -/
theorem dummy_table_no_columns {AbstractExpression : Type} (n : DummyTableNode)
    (column_id : Nat) :
    (n.output_expressions : List AbstractExpression) = [] ∧
    n.is_column_nullable column_id = .error "DummyTable does not output any columns" ∧
    is_fail (n.is_column_nullable column_id) = true ∧
    ∀ b, n.is_column_nullable column_id ≠ .ok b := by
  refine ⟨rfl, rfl, rfl, ?_⟩
  intro b h
  simp [DummyTableNode.is_column_nullable] at h

/-- C17: the description of a CreateTableNode with name `s` and flag `f` is
"[CreateTable] ", then "IfNotExists " when `f` is set, then "Name: '", `s` and
a closing quote, for every description mode; CreateTable("orders", true)
renders as "[CreateTable] IfNotExists Name: 'orders'". -/
theorem create_table_description {DescriptionMode : Type} (s : String) (f : Bool)
    (input : Option Nat) (m m' : DescriptionMode) :
    (CreateTableNode.make s f input).description m =
      "[CreateTable] " ++ (if f then "IfNotExists " else "") ++ "Name: '" ++ s ++ "'" ∧
    (CreateTableNode.make "orders" true input).description m =
      "[CreateTable] IfNotExists Name: 'orders'" ∧
    (CreateTableNode.make s f input).description m =
      (CreateTableNode.make s f input).description m' := by
  refine ⟨?_, ?_, rfl⟩
  · simp [CreateTableNode.description, CreateTableNode.make]
  · simp [CreateTableNode.description, CreateTableNode.make]

/-! ## Deep copy and deep equals -/

theorem lookup_mem_of_eq_some (l : LQPNodeMapping) (a b : Nat) (h : l.lookup a = some b) :
    (a, b) ∈ l := by
  induction l with
  | nil => simp at h
  | cons q l ih =>
    obtain ⟨k, v⟩ := q
    simp only [List.lookup] at h
    by_cases hk : a = k
    · subst hk
      simp at h
      subst h
      exact List.mem_cons_self _ _
    · have : (a == k) = false := by simpa using hk
      rw [this] at h
      exact List.mem_cons_of_mem _ (ih h)

theorem lookup_ne_none_of_mem (l : LQPNodeMapping) (a b : Nat) (h : (a, b) ∈ l) :
    l.lookup a ≠ none := by
  induction l with
  | nil => simp at h
  | cons q l ih =>
    obtain ⟨k, v⟩ := q
    simp only [List.lookup]
    by_cases hk : a = k
    · subst hk
      simp
    · have hk' : (a == k) = false := by simpa using hk
      rw [hk']
      rcases List.mem_cons.mp h with h | h
      · exact absurd (congrArg Prod.fst h) hk
      · exact ih h

theorem lookup_cons_self (l : LQPNodeMapping) (a b : Nat) :
    List.lookup a ((a, b) :: l) = some b := by
  simp [List.lookup]

theorem lookup_cons_ne (l : LQPNodeMapping) (a k b : Nat) (h : a ≠ k) :
    List.lookup a ((k, b) :: l) = List.lookup a l := by
  have : (a == k) = false := by simpa using h
  simp [List.lookup, this]

theorem extended_by_refl {FileType : Type} (s : CopyState FileType) : s.extended_by s := by
  refine ⟨le_refl _, fun _ _ => rfl, fun _ _ h => h, ?_⟩
  intro k v h h'
  rw [h] at h'
  cases h'

theorem extended_by_trans {FileType : Type} {s s1 s2 : CopyState FileType}
    (h1 : s.extended_by s1) (h2 : s1.extended_by s2) : s.extended_by s2 := by
  obtain ⟨l1, p1, m1, n1⟩ := h1
  obtain ⟨l2, p2, m2, n2⟩ := h2
  refine ⟨le_trans l1 l2, ?_, fun k v h => m2 k v (m1 k v h), ?_⟩
  · intro t ht
    rw [p2 t (lt_of_lt_of_le ht l1), p1 t ht]
  · intro k v h h'
    cases h1k : s1.node_mapping.lookup k with
    | none => exact le_trans l1 (n2 k v h1k h')
    | some v1 =>
      have := m2 k v1 h1k
      rw [this] at h'
      have hv : v1 = v := Option.some.inj h'
      rw [← hv]
      exact n1 k v1 h h1k

theorem copied_mono {FileType : Type} {source : List (LQPNode FileType)}
    {s s' : CopyState FileType} (hwf : s.wf) (hext : s.extended_by s') {k : Nat}
    (h : copied source s k) : copied source s' k := by
  obtain ⟨node, v, m, js, hsrc, hlook, hslot, hin⟩ := h
  obtain ⟨_, p, mo, _⟩ := hext
  refine ⟨node, v, m, js, hsrc, mo k v hlook, ?_, ?_⟩
  · rw [p v (hwf.1 k v hlook)]
    exact hslot
  · exact hin.imp (fun {c j} hc => mo c j hc)

theorem new_copied_trans {FileType : Type} {source : List (LQPNode FileType)}
    {s s1 s2 : CopyState FileType} (hwf1 : s1.wf) (h1 : new_copied source s s1)
    (hext : s1.extended_by s2) (h2 : new_copied source s1 s2) : new_copied source s s2 := by
  intro k v hk hk2
  cases h1k : s1.node_mapping.lookup k with
  | none => exact h2 k v h1k hk2
  | some v1 => exact copied_mono hwf1 hext (h1 k v1 hk h1k)

theorem deep_copy_inputs_ok {FileType : Type} (source : List (LQPNode FileType))
    (f : Nat → CopyState FileType → Option (Nat × CopyState FileType)) (cs : List Nat)
    (hf : ∀ c ∈ cs, copy_ok source f c) (s : CopyState FileType) (hs : s.wf) :
    ∃ js s', deep_copy_inputs f cs s = some (js, s') ∧ s'.wf ∧ s.extended_by s' ∧
      List.Forall₂ (fun c j => s'.node_mapping.lookup c = some j) cs js ∧
      new_copied source s s' := by
  induction cs generalizing s with
  | nil =>
    refine ⟨[], s, rfl, hs, extended_by_refl s, List.Forall₂.nil, ?_⟩
    intro k v h h'
    rw [h] at h'
    cases h'
  | cons c cs ih =>
    obtain ⟨j, s1, hf1, hwf1, hext1, hlook1, hnew1⟩ := hf c (List.mem_cons_self _ _) s hs
    obtain ⟨js, s2, hf2, hwf2, hext2, hall2, hnew2⟩ :=
      ih (fun c' hc' => hf c' (List.mem_cons_of_mem _ hc')) s1 hwf1
    refine ⟨j :: js, s2, ?_, hwf2, extended_by_trans hext1 hext2, ?_, ?_⟩
    · simp [deep_copy_inputs, hf1, hf2]
    · exact List.Forall₂.cons (hext2.2.2.1 c j hlook1) hall2
    · exact new_copied_trans hwf1 hnew1 hext2 hnew2

theorem wf_register {FileType : Type} (s : CopyState FileType) (hs : s.wf) (i : Nat)
    (copy : LQPNode FileType) :
    CopyState.wf
      { nodes := s.nodes ++ [copy], node_mapping := (i, s.nodes.length) :: s.node_mapping } := by
  constructor
  · intro k v h
    simp only [List.length_append, List.length_singleton]
    by_cases hk : k = i
    · subst hk
      rw [lookup_cons_self] at h
      have := Option.some.inj h
      omega
    · rw [lookup_cons_ne _ _ _ _ hk] at h
      have := hs.1 k v h
      omega
  · intro k k' v h h'
    by_cases hk : k = i
    · by_cases hk' : k' = i
      · rw [hk, hk']
      · subst hk
        rw [lookup_cons_self] at h
        rw [lookup_cons_ne _ _ _ _ hk'] at h'
        have h1 := Option.some.inj h
        have h2 := hs.1 k' v h'
        omega
    · by_cases hk' : k' = i
      · subst hk'
        rw [lookup_cons_self] at h'
        rw [lookup_cons_ne _ _ _ _ hk] at h
        have h1 := Option.some.inj h'
        have h2 := hs.1 k v h
        omega
      · rw [lookup_cons_ne _ _ _ _ hk] at h
        rw [lookup_cons_ne _ _ _ _ hk'] at h'
        exact hs.2 k k' v h h'

theorem extended_by_register {FileType : Type} (s : CopyState FileType) (i : Nat)
    (hlook : s.node_mapping.lookup i = none) (copy : LQPNode FileType) :
    s.extended_by
      { nodes := s.nodes ++ [copy], node_mapping := (i, s.nodes.length) :: s.node_mapping } := by
  refine ⟨by simp, ?_, ?_, ?_⟩
  · intro t ht
    exact List.getElem?_append_left ht
  · intro k v h
    have hk : k ≠ i := by
      intro hk
      rw [hk, hlook] at h
      cases h
    rw [lookup_cons_ne _ _ _ _ hk]
    exact h
  · intro k v h h'
    by_cases hk : k = i
    · subst hk
      rw [lookup_cons_self] at h'
      have := Option.some.inj h'
      omega
    · rw [lookup_cons_ne _ _ _ _ hk, h] at h'
      cases h'

theorem deep_copy_node_ok {FileType : Type} (source : List (LQPNode FileType)) (fuel : Nat) :
    ∀ i, dag_within source fuel i = true →
      copy_ok source (deep_copy_node source fuel) i := by
  induction fuel with
  | zero =>
    intro i h
    simp [dag_within] at h
  | succ fuel ih =>
    intro i hdag s hs
    cases hsrc : source[i]? with
    | none => simp [dag_within, hsrc] at hdag
    | some node =>
      have hin : ∀ c ∈ node.inputs, dag_within source fuel c = true := by
        simpa [dag_within, hsrc, List.all_eq_true] using hdag
      cases hlook : s.node_mapping.lookup i with
      | some j =>
        refine ⟨j, s, ?_, hs, extended_by_refl s, hlook, ?_⟩
        · simp [deep_copy_node, hlook]
        · intro k v h h'
          rw [h] at h'
          cases h'
      | none =>
        have hwf1 := wf_register s hs i (node.shallow_copy s.node_mapping)
        have hext1 := extended_by_register s i hlook (node.shallow_copy s.node_mapping)
        obtain ⟨js, s2, hf2, hwf2, hext2, hall2, hnew2⟩ :=
          deep_copy_inputs_ok source (deep_copy_node source fuel) node.inputs
            (fun c hc => ih c (hin c hc)) _ hwf1
        have hlen1 : s.nodes.length + 1 ≤ s2.nodes.length := by
          have := hext2.1
          simpa using this
        have hi2 : s2.node_mapping.lookup i = some s.nodes.length :=
          hext2.2.2.1 i _ (lookup_cons_self _ _ _)
        refine ⟨s.nodes.length,
          { nodes := s2.nodes.set s.nodes.length
              ((node.shallow_copy s.node_mapping).set_inputs js),
            node_mapping := s2.node_mapping }, ?_, ?_, ?_, hi2, ?_⟩
        · simp only [deep_copy_node, hlook, hsrc, hf2]
        · exact ⟨fun k v h => by simpa using hwf2.1 k v h, hwf2.2⟩
        · refine ⟨by simp; omega, ?_, ?_, ?_⟩
          · intro t ht
            have hne : s.nodes.length ≠ t := by omega
            simp only [List.getElem?_set_ne hne]
            rw [hext2.2.1 t (by simp; omega)]
            exact hext1.2.1 t ht
          · intro k v h
            exact hext2.2.2.1 k v (hext1.2.2.1 k v h)
          · intro k v h h'
            by_cases hk : k = i
            · subst hk
              have h'' : s2.node_mapping.lookup k = some v := h'
              rw [hi2] at h''
              have := Option.some.inj h''
              omega
            · have h1 : List.lookup k ((i, s.nodes.length) :: s.node_mapping) = none := by
                rw [lookup_cons_ne _ _ _ _ hk]
                exact h
              have := hext2.2.2.2 k v h1 h'
              simp at this
              omega
        · intro k v h h'
          have h'2 : s2.node_mapping.lookup k = some v := h'
          by_cases hk : k = i
          · subst hk
            refine ⟨node, s.nodes.length, s.node_mapping, js, hsrc, hi2, ?_, hall2⟩
            exact List.getElem?_set_self (by omega)
          · have h1 : List.lookup k ((i, s.nodes.length) :: s.node_mapping) = none := by
              rw [lookup_cons_ne _ _ _ _ hk]
              exact h
            obtain ⟨node', v', m', js', hsrc', hlook', hslot', hin'⟩ := hnew2 k v h1 h'2
            have hv' := hext2.2.2.2 k v' h1 hlook'
            simp at hv'
            refine ⟨node', v', m', js', hsrc', hlook', ?_, hin'⟩
            have hne : s.nodes.length ≠ v' := by omega
            simp only [List.getElem?_set_ne hne]
            exact hslot'

theorem type_set_inputs_shallow_copy {FileType : Type} (x : LQPNode FileType)
    (m : LQPNodeMapping) (js : List Nat) :
    ((x.shallow_copy m).set_inputs js).type = x.type := by
  cases x <;> rfl

theorem inputs_set_inputs {FileType : Type} (x : LQPNode FileType) (js : List Nat) :
    (x.set_inputs js).inputs = js := by
  cases x <;> rfl

theorem shallow_equals_set_inputs_shallow_copy {FileType : Type} [DecidableEq FileType]
    (x : LQPNode FileType) (m pairs : LQPNodeMapping) (js : List Nat) :
    x.shallow_equals ((x.shallow_copy m).set_inputs js) pairs = true := by
  cases x <;>
    simp [LQPNode.shallow_equals, LQPNode.shallow_copy, LQPNode.set_inputs,
      CreateTableNode._on_shallow_equals, CreateTableNode._on_shallow_copy,
      CreateTableNode.make, ExportNode._on_shallow_equals, ExportNode._on_shallow_copy,
      ExportNode.make, DummyTableNode._on_shallow_equals, UpdateNode._on_shallow_equals,
      UpdateNode._on_shallow_copy]

theorem deep_equals_inputs_ok {FileType : Type} (s : CopyState FileType)
    (f : Nat → Nat → LQPNodeMapping → Option (Bool × LQPNodeMapping)) (as bs : List Nat)
    (hall : List.Forall₂ (fun c j => s.node_mapping.lookup c = some j) as bs) :
    (∀ a ∈ as, equals_ok s f a) → ∀ pairs, pairs_ok s pairs →
      ∃ pairs', deep_equals_inputs f as bs pairs = some (true, pairs') ∧ pairs_ok s pairs' := by
  induction hall with
  | nil =>
    intro _ pairs hp
    exact ⟨pairs, rfl, hp⟩
  | cons hab _ ih =>
    intro hf pairs hp
    obtain ⟨pairs1, h1, hp1⟩ := hf _ (List.mem_cons_self _ _) _ pairs hab hp
    obtain ⟨pairs2, h2, hp2⟩ := ih (fun a ha => hf a (List.mem_cons_of_mem _ ha)) pairs1 hp1
    exact ⟨pairs2, by simp [deep_equals_inputs, h1, h2], hp2⟩

theorem deep_equals_node_ok {FileType : Type} [DecidableEq FileType]
    (source : List (LQPNode FileType)) (s : CopyState FileType) (hwf : s.wf)
    (hall : ∀ k v, s.node_mapping.lookup k = some v → copied source s k) (fuel : Nat) :
    ∀ a, dag_within source fuel a = true →
      equals_ok s (deep_equals_node source s.nodes fuel) a := by
  induction fuel with
  | zero =>
    intro a h
    simp [dag_within] at h
  | succ fuel ih =>
    intro a hdag b pairs hab hp
    cases hpa : pairs.lookup a with
    | some b' =>
      have hb' := hp (a, b') (lookup_mem_of_eq_some pairs a b' hpa)
      have hbb : b' = b := by
        have h1 : s.node_mapping.lookup a = some b' := hb'
        rw [hab] at h1
        exact (Option.some.inj h1).symm
      exact ⟨pairs, by simp [deep_equals_node, hpa, hbb], hp⟩
    | none =>
      have hany : (pairs.any fun q => q.2 == b) = false := by
        rw [Bool.eq_false_iff]
        intro hc
        obtain ⟨q, hq, hqb⟩ := List.any_eq_true.mp hc
        have hq2 : q.2 = b := by simpa using hqb
        have hq1 : s.node_mapping.lookup q.1 = some b := by
          rw [← hq2]
          exact hp q hq
        have hqa : q.1 = a := hwf.2 q.1 a b hq1 hab
        have hmem : (a, q.2) ∈ pairs := by
          rw [← hqa]
          exact hq
        exact lookup_ne_none_of_mem pairs a q.2 hmem hpa
      obtain ⟨node, v, m, js, hsrc, hlook, hslot, hin⟩ := hall a b hab
      have hvb : v = b := by
        rw [hab] at hlook
        exact (Option.some.inj hlook).symm
      subst hvb
      have hdag' : ∀ c ∈ node.inputs, dag_within source fuel c = true := by
        simpa [dag_within, hsrc, List.all_eq_true] using hdag
      have hp1 : pairs_ok s ((a, v) :: pairs) := by
        intro q hq
        rcases List.mem_cons.mp hq with h | h
        · rw [h]
          exact hab
        · exact hp q h
      obtain ⟨pairs', h', hp'⟩ :=
        deep_equals_inputs_ok s (deep_equals_node source s.nodes fuel) node.inputs js hin
          (fun c hc => ih c (hdag' c hc)) ((a, v) :: pairs) hp1
      refine ⟨pairs', ?_, hp'⟩
      simp only [deep_equals_node, hpa, hany, hsrc, hslot, type_set_inputs_shallow_copy,
        inputs_set_inputs, shallow_equals_set_inputs_shallow_copy, hin.length_eq]
      simpa using h'

/-- C18: deep equals of a plan graph and its deep copy. For every plan graph
`G` that is a DAG, possibly with shared subplans, `deep_copy G` returns a
graph and `deep_equals` reports `G` and that copy equal. -/
theorem deep_equals_deep_copy {FileType : Type} [DecidableEq FileType]
    (G : PlanGraph FileType) (hG : G.is_dag = true) :
    ∃ G', deep_copy G = some G' ∧ deep_equals G G' = some true := by
  obtain ⟨r, s, hcopy, hwf, _, hroot, hnew⟩ :=
    deep_copy_node_ok G.nodes G.nodes.length G.root hG { nodes := [], node_mapping := [] }
      ⟨fun k v h => by simp [List.lookup] at h, fun k k' v h => by simp [List.lookup] at h⟩
  have hall : ∀ k v, s.node_mapping.lookup k = some v → copied G.nodes s k :=
    fun k v h => hnew k v rfl h
  obtain ⟨pairs, heq, _⟩ :=
    deep_equals_node_ok G.nodes s hwf hall G.nodes.length G.root hG r [] hroot
      (fun q hq => by simp at hq)
  exact ⟨{ nodes := s.nodes, root := r }, by simp [deep_copy, hcopy],
    by simp [deep_equals, heq]⟩

/-- Witness of C18 on a plan with sharing: `diamond_plan` is a DAG whose
CreateTable node has two parents; its deep copy exists and is deep-equal to
it. -/
theorem deep_equals_deep_copy_witness :
    diamond_plan.is_dag = true ∧
    ∃ G', deep_copy diamond_plan = some G' ∧ deep_equals diamond_plan G' = some true :=
  ⟨by decide, deep_equals_deep_copy diamond_plan (by decide)⟩

theorem dag_within_succ {FileType : Type} (nodes : List (LQPNode FileType)) (fuel : Nat) :
    ∀ i, dag_within nodes fuel i = true → dag_within nodes (fuel + 1) i = true := by
  induction fuel with
  | zero =>
    intro i h
    simp [dag_within] at h
  | succ fuel ih =>
    intro i h
    cases hsrc : nodes[i]? with
    | none => simp [dag_within, hsrc] at h
    | some node =>
      have hin : ∀ c ∈ node.inputs, dag_within nodes fuel c = true := by
        simpa [dag_within, hsrc, List.all_eq_true] using h
      have hin' : ∀ c ∈ node.inputs, dag_within nodes (fuel + 1) c = true :=
        fun c hc => ih c (hin c hc)
      rw [dag_within, hsrc]
      exact List.all_eq_true.mpr hin'

theorem dag_within_mono {FileType : Type} (nodes : List (LQPNode FileType)) (i : Nat)
    {fuel fuel' : Nat} (hle : fuel ≤ fuel') (h : dag_within nodes fuel i = true) :
    dag_within nodes fuel' i = true := by
  induction hle with
  | refl => exact h
  | step _ ih => exact dag_within_succ nodes _ i ih

/-- An arena in topological order, every child reference pointing to an
earlier slot, with its root in the arena, is a DAG in the sense of `is_dag`. -/
theorem is_dag_of_topological {FileType : Type} (G : PlanGraph FileType)
    (hroot : G.root < G.nodes.length)
    (htopo : ∀ (i : Nat) (node : LQPNode FileType), G.nodes[i]? = some node →
      ∀ c ∈ node.inputs, c < i) :
    G.is_dag = true := by
  have key : ∀ n i, i < n → i < G.nodes.length → dag_within G.nodes (i + 1) i = true := by
    intro n
    induction n with
    | zero =>
      intro i hi
      omega
    | succ n ih =>
      intro i hi hlen
      have hsrc : G.nodes[i]? = some (G.nodes[i]) := List.getElem?_eq_getElem hlen
      rw [dag_within, hsrc]
      refine List.all_eq_true.mpr ?_
      intro c hc
      have hci : c < i := htopo i _ hsrc c hc
      exact dag_within_mono G.nodes c (by omega) (ih c (by omega) (by omega))
  exact dag_within_mono G.nodes G.root (by omega) (key (G.root + 1) G.root (by omega) hroot)

/-- The deep copy of `diamond_plan` keeps the sharing: both Export copies
refer to the one copy of the CreateTable node. -/
theorem deep_copy_diamond_plan :
    deep_copy diamond_plan = some
      { nodes := [
          .Update { inputs := [1, 4], table_name := "t" },
          .Export { inputs := [2], file_name := "a.csv", file_type := 0 },
          .CreateTable { inputs := [3], table_name := "orders", if_not_exists := true },
          .DummyTable { inputs := [] },
          .Export { inputs := [2], file_name := "b.csv", file_type := 1 }],
        root := 0 } := by
  decide

/-- Deep equals is sensitive to sharing: `diamond_plan` is not deep-equal to
the plan in which the two Export nodes read from two separate but equal
CreateTable nodes, in either direction. -/
theorem deep_equals_detects_lost_sharing :
    deep_equals diamond_plan
      { nodes := [
          .DummyTable { inputs := [] },
          .CreateTable { inputs := [0], table_name := "orders", if_not_exists := true },
          .Export { inputs := [1], file_name := "a.csv", file_type := 0 },
          .Export { inputs := [4], file_name := "b.csv", file_type := 1 },
          .CreateTable { inputs := [0], table_name := "orders", if_not_exists := true },
          .Update { inputs := [2, 3], table_name := "t" }],
        root := 5 } = some false ∧
    deep_equals
      { nodes := [
          .DummyTable { inputs := [] },
          .CreateTable { inputs := [0], table_name := "orders", if_not_exists := true },
          .Export { inputs := [1], file_name := "a.csv", file_type := 0 },
          .Export { inputs := [4], file_name := "b.csv", file_type := 1 },
          .CreateTable { inputs := [0], table_name := "orders", if_not_exists := true },
          .Update { inputs := [2, 3], table_name := "t" }],
        root := 5 } diamond_plan = some false := by
  decide

end hyrise
